import Mathlib

/-!
Shallow embedding of `dateregbot_full.py` (estimation core).

Modelling conventions:
* Python `datetime` instants are modelled two ways, matching how each claim
  uses them: as a calendar record `UTCDateTime` (year/month/day/hour/minute/
  second, always UTC) where the code builds or compares calendar fields, and
  as POSIX seconds in `ℚ` where the code does interpolation arithmetic
  (`t0 + (t1 - t0) * frac`; Python does this with float fractions and
  microsecond-rounded timedeltas — the spec declares sub-second precision
  irrelevant, so exact rational arithmetic is the faithful idealization).
  `toEpoch` converts the former to the latter.
* Python `float` confidence literals `0.9`, `0.75`, `0.6`, `0.35`, `0.0` are
  modelled as the exact rationals those literals denote.
* Fallible external fetches are modelled as `Except Unit _` (`.error` = the
  call raised) and absent values as `Option`.
-/

/-- A UTC wall-clock instant, the shape `datetime(..., tzinfo=timezone.utc)`
carries in the source. -/
structure UTCDateTime where
  year : ℤ
  month : ℤ
  day : ℤ
  hour : ℤ
  minute : ℤ
  second : ℤ
deriving DecidableEq, Repr

/-- Days from 1970-01-01 to the civil date `y-m-d` (proleptic Gregorian),
the standard civil-from-days inverse used to realize `datetime` arithmetic
on the POSIX timeline. -/
def daysFromCivil (y m d : ℤ) : ℤ :=
  let y2 : ℤ := if m ≤ 2 then y - 1 else y
  let era : ℤ := (if 0 ≤ y2 then y2 else y2 - 399) / 400
  let yoe : ℤ := y2 - era * 400
  let mp : ℤ := (m + 9) % 12
  let doy : ℤ := (153 * mp + 2) / 5 + d - 1
  let doe : ℤ := yoe * 365 + yoe / 4 - yoe / 100 + doy
  era * 146097 + doe - 719468

/-- POSIX seconds of a `UTCDateTime`. -/
def toEpoch (t : UTCDateTime) : ℚ :=
  ((daysFromCivil t.year t.month t.day * 86400
    + t.hour * 3600 + t.minute * 60 + t.second : ℤ) : ℚ)

/-- `ensure_anchors` (lines 63-89): the list it generates and writes to
`anchors.json`. `total_anchors = end_year - start_year + 1`,
`step = (user_id_end - user_id_start) // total_anchors`; one anchor per year
at Jan 1 00:00:00 UTC, then a final `(2_000_000_000, now)` anchor.
(Python `//` is floor division; `Int./` truncates, but the two agree on the
nonnegative operands arising whenever `now.year ≥ 2013`, the regime of every
claim about this function.) -/
def ensure_anchors_list (now : UTCDateTime) : List (ℤ × UTCDateTime) :=
  let start_year : ℤ := 2013
  let end_year : ℤ := now.year
  let total_anchors : ℤ := end_year - start_year + 1
  let user_id_start : ℤ := 1000
  let user_id_end : ℤ := 2000000000
  let step : ℤ := (user_id_end - user_id_start) / total_anchors
  ((List.range total_anchors.toNat).map fun (i : ℕ) =>
    ((user_id_start + (i : ℤ) * step : ℤ),
      (⟨start_year + (i : ℤ), 1, 1, 0, 0, 0⟩ : UTCDateTime)))
  ++ [(user_id_end, now)]

/-- `ensure_anchors` as a transformer of the `anchors.json` file state
(`none` = file absent, `some l` = file holds the record list `l`).
The source writes unconditionally: it never tests whether the file exists. -/
def ensure_anchors (now : UTCDateTime)
    (_st : Option (List (ℤ × UTCDateTime))) : Option (List (ℤ × UTCDateTime)) :=
  some (ensure_anchors_list now)

/-- `load_anchors` (lines 91-101): regenerates via `ensure_anchors`, parses
each record back (identity here), and sorts ascending by id. -/
def load_anchors (now : UTCDateTime) : List (ℤ × ℚ) :=
  (((ensure_anchors_list now).map fun a => (a.1, toEpoch a.2))).mergeSort
    fun x y => decide (x.1 ≤ y.1)

/-- The zero-guarded fraction `num / den if den else 0.0` used by every
interpolation/extrapolation branch of `estimate_by_anchors`. -/
def guardedFrac (num den : ℤ) : ℚ :=
  if den = 0 then 0 else (num : ℚ) / (den : ℚ)

/-- `t_lo + (t_hi - t_lo) * frac` with
`frac = (user_id - uid_lo) / (uid_hi - uid_lo)` (zero-guarded): the exact
line computed by both the below-range branch (lines 114-119) and the
in-range branch (lines 129-140). -/
def interpVal (lo hi : ℤ × ℚ) (u : ℤ) : ℚ :=
  lo.2 + (hi.2 - lo.2) * guardedFrac (u - lo.1) (hi.1 - lo.1)

/-- The above-range branch (lines 121-127):
`t1 + (t1 - t0) * ((user_id - uid1) / (uid1 - uid0))`, zero-guarded, where
`(uid0, t0) = anchors[-2]` and `(uid1, t1) = anchors[-1]`. -/
def extrapAboveVal (penult last : ℤ × ℚ) (u : ℤ) : ℚ :=
  last.2 + (last.2 - penult.2) * guardedFrac (u - last.1) (last.1 - penult.1)

/-- The exact-match loop of `estimate_by_anchors` (lines 109-111): first
anchor whose id equals `user_id`. -/
def findExact : List (ℤ × ℚ) → ℤ → Option ℚ
  | [], _ => none
  | (uid, ts) :: rest, u => if uid = u then some ts else findExact rest u

/-- `(anchors[-2], anchors[-1])` of `a :: b :: rest`. -/
def lastTwo : (ℤ × ℚ) → (ℤ × ℚ) → List (ℤ × ℚ) → (ℤ × ℚ) × (ℤ × ℚ)
  | a, b, [] => (a, b)
  | _, b, c :: r => lastTwo b c r

/-- The bracketing-pair scan (lines 131-135): first adjacent pair `(lo, hi)`
with `lo.id ≤ user_id ≤ hi.id`. -/
def findBracket : List (ℤ × ℚ) → ℤ → Option ((ℤ × ℚ) × (ℤ × ℚ))
  | a :: b :: rest, u =>
    if a.1 ≤ u ∧ u ≤ b.1 then some (a, b) else findBracket (b :: rest) u
  | _, _ => none

/-- `estimate_by_anchors` (lines 103-140) over an explicit anchor table
(the sorted list `load_anchors` produces). Returns the estimate plus the
rationale string; `none` models the `IndexError` the source raises when the
table has fewer than two anchors and no exact match. -/
def estimate_by_anchors (anchors : List (ℤ × ℚ)) (u : ℤ) : Option (ℚ × String) :=
  match findExact anchors u with
  | some ts => some (ts, "Exact anchor match")
  | none =>
    match anchors with
    | a0 :: a1 :: rest =>
      if u < a0.1 then
        some (interpVal a0 a1 u, "Extrapolated before first anchor (low confidence)")
      else
        let p := lastTwo a0 a1 rest
        if p.2.1 < u then
          some (extrapAboveVal p.1 p.2 u, "Extrapolated after last anchor (low confidence)")
        else
          let br := (findBracket (a0 :: a1 :: rest) u).getD (a0, p.2)
          some (interpVal br.1 br.2 u,
            "Interpolated between " ++ toString br.1.1 ++ " and " ++ toString br.2.1)
    | _ => none

/-- The `results` dict of `handle_request`: one optional instant per signal
slot (a key is present iff its value is a truthy `datetime`, and `datetime`
values are always truthy in Python). -/
structure SignalResults where
  by_profile_photo : Option ℚ
  by_telethon_msg : Option ℚ
  by_tme_scrape : Option ℚ
  by_anchors : Option ℚ
deriving DecidableEq, Repr

/-- `choose_final_estimate` (lines 266-275): fixed-priority selection over
the four slots. -/
def choose_final_estimate (r : SignalResults) : Option ℚ × String × ℚ :=
  if r.by_profile_photo.isSome then
    (r.by_profile_photo, "Earliest profile photo EXIF (high confidence)", 0.9)
  else if r.by_telethon_msg.isSome then
    (r.by_telethon_msg, "Earliest message found in shared dialogs (medium-high confidence)", 0.75)
  else if r.by_tme_scrape.isSome then
    (r.by_tme_scrape, "Earliest public t.me post (medium confidence)", 0.6)
  else if r.by_anchors.isSome then
    (r.by_anchors, "Anchors interpolation (low confidence)", 0.35)
  else
    (none, "No usable signal found", 0.0)

/-- One page fetch of `scrape_earliest_tme_post`: `.error` = `requests.get`
(or parsing the response body) raised; `.ok (status, elems)` = a response
with that status code whose `<time>` elements each carry the timestamp their
`datetime`/`title` attribute parses to (`none` = attribute absent or
`fromisoformat` failed; both are `continue`d over, lines 191-198). -/
abbrev PageFetch := Except Unit (ℤ × List (Option ℚ))

/-- Is the fetch a returned response (as opposed to a raised exception)? -/
def pageOk : PageFetch → Bool
  | Except.error _ => false
  | Except.ok _ => true

/-- The page loop of `scrape_earliest_tme_post` (lines 184-198), threading
the `found` accumulator. A raised fetch propagates to the function-level
`except` (line 202) and yields `none`, discarding the accumulator; a non-200
status is `continue`d over (line 187-188). -/
def scrapeLoop : List PageFetch → List ℚ → Option (List ℚ)
  | [], found => some found
  | Except.error _ :: _, _ => none
  | Except.ok (st, elems) :: rest, found =>
    if st ≠ 200 then scrapeLoop rest found
    else scrapeLoop rest (found ++ elems.filterMap id)

/-- `scrape_earliest_tme_post` (lines 180-203) given the outcomes of the
five page fetches in order: `min(found)` or `None` (lines 199-201). -/
def scrape_earliest_tme_post (pages : List PageFetch) : Option ℚ :=
  match scrapeLoop pages [] with
  | none => none
  | some found => if found.isEmpty then none else found.min?

/-- Modelled from the spec (claim C4's expected behavior, spec §4.3): every
page's parseable timestamps are collected, a failed or non-200 fetch
contributes no timestamps for that page only, and the minimum over all pages
is returned (`none` when nothing was collected). Used to compare the source
function against the claim. -/
def pageContribution : PageFetch → List ℚ
  | Except.error _ => []
  | Except.ok (st, elems) => if st = 200 then elems.filterMap id else []

/-- Modelled from the spec (claim C4): the claimed cross-page minimum. -/
def scrapeSpecMin (pages : List PageFetch) : Option ℚ :=
  ((pages.map pageContribution).flatten).min?

/-- The message-history fetch of `earliest_public_message_date`: `.error` =
`iter_messages` raised, `.ok l` = the oldest-first timestamps it yields. -/
abbrev MsgFetch := Except Unit (List ℚ)

/-- The `iter_messages` scan of lines 254-261: first yielded timestamp among
at most 500 records, `none` on an empty sequence or a raised fetch. -/
def firstFetchedMessageDate (msgs : MsgFetch) : Option ℚ :=
  match msgs with
  | Except.error _ => none
  | Except.ok l => (l.take 500).head?

/-- `earliest_public_message_date` (lines 248-261). `username` is the
entity's optional public handle, `scraped` the value
`scrape_earliest_tme_post` would return for that handle, `msgs` the
message-history fetch outcome. When the handle exists and the scrape
returned a (truthy) timestamp, that scraped value is returned directly
(lines 249-253); only otherwise is the message scan consulted. -/
def earliest_public_message_date (username : Option String) (scraped : Option ℚ)
    (msgs : MsgFetch) : Option ℚ :=
  match username with
  | some _ =>
    match scraped with
    | some t => some t
    | none => firstFetchedMessageDate msgs
  | none => firstFetchedMessageDate msgs

/-- The tag-name tuple of line 166. -/
def exifDatePref : List String := ["DateTimeOriginal", "DateTime", "DateTimeDigitized"]

/-- `val.replace(":", "-", 2)`: replace the first `n` colons by dashes. -/
def replaceColonsTwo : ℕ → List Char → List Char
  | _, [] => []
  | 0, l => l
  | n + 1, c :: r =>
    if c = ':' then '-' :: replaceColonsTwo n r else c :: replaceColonsTwo (n + 1) r

/-- Numeric value of a digit character. -/
def digitVal (c : Char) : ℤ := (c.toNat : ℤ) - 48

/-- Is `c` an ASCII digit? -/
def isDigitC (c : Char) : Bool := '0' ≤ c && c ≤ '9'

/-- CPython `_strptime` field `%Y`: exactly four digits. -/
def matchY : List Char → Option (ℤ × List Char)
  | c1 :: c2 :: c3 :: c4 :: rest =>
    if isDigitC c1 && isDigitC c2 && isDigitC c3 && isDigitC c4 then
      some (digitVal c1 * 1000 + digitVal c2 * 100 + digitVal c3 * 10 + digitVal c4, rest)
    else none
  | _ => none

/-- CPython `_strptime` field `%m`, regex `1[0-2]|0[1-9]|[1-9]` (ordered
alternatives; no cross-field backtracking is ever needed for this format
because every fallback leaves a digit where a separator is required). -/
def matchMonth : List Char → Option (ℤ × List Char)
  | c1 :: c2 :: rest =>
    if c1 = '1' && ('0' ≤ c2 && c2 ≤ '2') then some (10 + digitVal c2, rest)
    else if c1 = '0' && ('1' ≤ c2 && c2 ≤ '9') then some (digitVal c2, rest)
    else if '1' ≤ c1 && c1 ≤ '9' then some (digitVal c1, c2 :: rest)
    else none
  | [c1] => if '1' ≤ c1 && c1 ≤ '9' then some (digitVal c1, []) else none
  | [] => none

/-- CPython `_strptime` field `%d`, regex `3[01]|[12]\d|0[1-9]|[1-9]`. -/
def matchDay : List Char → Option (ℤ × List Char)
  | c1 :: c2 :: rest =>
    if c1 = '3' && ('0' ≤ c2 && c2 ≤ '1') then some (30 + digitVal c2, rest)
    else if ('1' ≤ c1 && c1 ≤ '2') && isDigitC c2 then
      some (digitVal c1 * 10 + digitVal c2, rest)
    else if c1 = '0' && ('1' ≤ c2 && c2 ≤ '9') then some (digitVal c2, rest)
    else if '1' ≤ c1 && c1 ≤ '9' then some (digitVal c1, c2 :: rest)
    else none
  | [c1] => if '1' ≤ c1 && c1 ≤ '9' then some (digitVal c1, []) else none
  | [] => none

/-- CPython `_strptime` field `%H`, regex `2[0-3]|[0-1]\d|\d`. -/
def matchHour : List Char → Option (ℤ × List Char)
  | c1 :: c2 :: rest =>
    if c1 = '2' && ('0' ≤ c2 && c2 ≤ '3') then some (20 + digitVal c2, rest)
    else if ('0' ≤ c1 && c1 ≤ '1') && isDigitC c2 then
      some (digitVal c1 * 10 + digitVal c2, rest)
    else if isDigitC c1 then some (digitVal c1, c2 :: rest)
    else none
  | [c1] => if isDigitC c1 then some (digitVal c1, []) else none
  | [] => none

/-- CPython `_strptime` fields `%M` and `%S`, regex `[0-5]\d|\d`. -/
def matchMinSec : List Char → Option (ℤ × List Char)
  | c1 :: c2 :: rest =>
    if ('0' ≤ c1 && c1 ≤ '5') && isDigitC c2 then
      some (digitVal c1 * 10 + digitVal c2, rest)
    else if isDigitC c1 then some (digitVal c1, c2 :: rest)
    else none
  | [c1] => if isDigitC c1 then some (digitVal c1, []) else none
  | [] => none

/-- Match one literal character of the format string. -/
def matchLit (ch : Char) : List Char → Option (List Char)
  | c :: rest => if c = ch then some rest else none
  | [] => none

/-- Gregorian leap-year test (as in `datetime`). -/
def isLeapYear (y : ℤ) : Bool := (y % 4 = 0 && y % 100 ≠ 0) || y % 400 = 0

/-- Days in a month (as validated by the `datetime` constructor). -/
def daysInMonth (y m : ℤ) : ℤ :=
  if m = 2 then (if isLeapYear y then 29 else 28)
  else if m = 4 || m = 6 || m = 9 || m = 11 then 30
  else 31

/-- `datetime.strptime(val, "%Y-%m-%d %H:%M:%S")` (line 172): the format
regex must consume the whole string, then the `datetime` constructor
validates the fields (any failure raises, which the caller turns into
`None`). -/
def strptimeYmdHMS (s : List Char) : Option UTCDateTime := do
  let (y, r1) ← matchY s
  let r2 ← matchLit '-' r1
  let (m, r3) ← matchMonth r2
  let r4 ← matchLit '-' r3
  let (d, r5) ← matchDay r4
  let r6 ← matchLit ' ' r5
  let (hh, r7) ← matchHour r6
  let r8 ← matchLit ':' r7
  let (mi, r9) ← matchMinSec r8
  let r10 ← matchLit ':' r9
  let (ss, r11) ← matchMinSec r10
  if r11 = [] then
    if 1 ≤ y && d ≤ daysInMonth y m then some ⟨y, m, d, hh, mi, ss⟩ else none
  else none

/-- `extract_exif_datetime_from_bytes` (lines 157-175). The input models
`img._getexif()` after `TAGS` name mapping: `.error` = `Image.open` or
`_getexif` raised, `.ok tags` = the EXIF dict as its (name, value) items in
iteration order (`[]` = falsy/absent dict). The loop takes the first item
whose name is one of `exifDatePref` (lines 164-168); an empty value is falsy
(line 169); then `replace(":", "-", 2)` and `strptime` (lines 171-172), any
failure giving `None`. -/
def extract_exif_datetime_from_bytes
    (exif : Except Unit (List (String × String))) : Option UTCDateTime :=
  match exif with
  | Except.error _ => none
  | Except.ok tags =>
    if tags.isEmpty then none
    else
      match tags.find? (fun p => exifDatePref.contains p.1) with
      | none => none
      | some (_, v) =>
        if v = "" then none
        else strptimeYmdHMS (replaceColonsTwo 2 v.data)

/-- The `results` map as assembled by `handle_request` (lines 317-342):
`by_profile_photo` and `by_telethon_msg` are present iff their fetch
returned a value; the `by_tme_scrape` fetch is attempted only when the
entity has a username (line 336); `by_anchors` is assigned unconditionally
(lines 341-342). -/
def handle_request_results (pf tm : Option ℚ) (uname : Option String)
    (sc : Option ℚ) (anchors_dt : ℚ) : SignalResults :=
  { by_profile_photo := pf
    by_telethon_msg := tm
    by_tme_scrape := if uname.isSome then sc else none
    by_anchors := some anchors_dt }

/-- The value of `inRangeVal a b rest u`: the in-range interpolation of
`estimate_by_anchors` restated as a structural recursion over the anchor
list, used to reason about the bracket scan. -/
def inRangeVal : (ℤ × ℚ) → (ℤ × ℚ) → List (ℤ × ℚ) → ℤ → ℚ
  | a, b, [], u => interpVal a b u
  | a, b, c :: r, u => if u ≤ b.1 then interpVal a b u else inRangeVal b c r u

/-- The anchor table of the spec's end-to-end scenario (claim C2), with a
parametric `now` for the last anchor. -/
def c2Anchors (now : ℚ) : List (ℤ × ℚ) :=
  [(1000, toEpoch ⟨2013, 1, 1, 0, 0, 0⟩),
   (500500000, toEpoch ⟨2018, 1, 1, 0, 0, 0⟩),
   (1000500000, toEpoch ⟨2023, 1, 1, 0, 0, 0⟩),
   (2000000000, now)]

/-! ## Theorems -/

/-- C1: `choose_final_estimate` selects by fixed priority — a present
`by_profile_photo` wins with confidence 0.90 regardless of the other slots,
then `by_telethon_msg` with 0.75, then `by_tme_scrape` with 0.60, then
`by_anchors` with 0.35, else timestamp `none` with confidence 0.0; the
chosen timestamp is always one of the input slots, never a blend. -/
theorem choose_final_estimate_priority : ∀ r : SignalResults,
    (∀ t, r.by_profile_photo = some t →
      choose_final_estimate r =
        (some t, "Earliest profile photo EXIF (high confidence)", 0.9)) ∧
    (r.by_profile_photo = none → ∀ t, r.by_telethon_msg = some t →
      choose_final_estimate r =
        (some t, "Earliest message found in shared dialogs (medium-high confidence)", 0.75)) ∧
    (r.by_profile_photo = none → r.by_telethon_msg = none →
      ∀ t, r.by_tme_scrape = some t →
      choose_final_estimate r =
        (some t, "Earliest public t.me post (medium confidence)", 0.6)) ∧
    (r.by_profile_photo = none → r.by_telethon_msg = none →
      r.by_tme_scrape = none → ∀ t, r.by_anchors = some t →
      choose_final_estimate r =
        (some t, "Anchors interpolation (low confidence)", 0.35)) ∧
    (r.by_profile_photo = none → r.by_telethon_msg = none →
      r.by_tme_scrape = none → r.by_anchors = none →
      choose_final_estimate r = (none, "No usable signal found", 0.0)) ∧
    ((choose_final_estimate r).1 = r.by_profile_photo ∨
     (choose_final_estimate r).1 = r.by_telethon_msg ∨
     (choose_final_estimate r).1 = r.by_tme_scrape ∨
     (choose_final_estimate r).1 = r.by_anchors ∨
     (choose_final_estimate r).1 = none) := by
  intro r
  obtain ⟨a, b, c, d⟩ := r
  refine ⟨?_, ?_, ?_, ?_, ?_, ?_⟩ <;>
    cases a <;> cases b <;> cases c <;> cases d <;>
      simp [choose_final_estimate]

/-- C1 witness: with every slot present, the profile-photo slot wins with
confidence 0.90. -/
theorem choose_final_estimate_priority_witness :
    choose_final_estimate ⟨some 1, some 2, some 3, some 4⟩ =
      (some 1, "Earliest profile photo EXIF (high confidence)", 0.9) :=
  (choose_final_estimate_priority ⟨some 1, some 2, some 3, some 4⟩).1 1 rfl

/-- C3 counterexample: the anchors artifact exists (holds `[]`), yet calling
the ensure operation changes its contents — the source regenerates and
rewrites the file unconditionally, with no existence check. -/
theorem ensure_anchors_overwrite_cex :
    (some ([] : List (ℤ × UTCDateTime))).isSome = true ∧
    ensure_anchors ⟨2025, 10, 12, 0, 0, 0⟩ (some []) ≠ some [] := by
  constructor
  · rfl
  · intro h
    simp [ensure_anchors, ensure_anchors_list] at h

/-- C3 amended: `ensure_anchors` unconditionally regenerates the artifact,
whatever the prior state; it leaves an existing artifact unchanged only in
the special case where the contents already equal the freshly generated
list. -/
theorem ensure_anchors_unconditional :
    ∀ (now : UTCDateTime) (st : Option (List (ℤ × UTCDateTime))),
    ensure_anchors now st = some (ensure_anchors_list now) ∧
    (st = some (ensure_anchors_list now) → ensure_anchors now st = st) := by
  intro now st
  exact ⟨rfl, fun h => by subst h; rfl⟩

/-- C3 amended witness: a state already holding the generated list is mapped
to itself. -/
theorem ensure_anchors_unconditional_witness :
    ensure_anchors ⟨2025, 10, 12, 0, 0, 0⟩
      (some (ensure_anchors_list ⟨2025, 10, 12, 0, 0, 0⟩)) =
    some (ensure_anchors_list ⟨2025, 10, 12, 0, 0, 0⟩) :=
  (ensure_anchors_unconditional ⟨2025, 10, 12, 0, 0, 0⟩
    (some (ensure_anchors_list ⟨2025, 10, 12, 0, 0, 0⟩))).2 rfl

/-- C9: whenever the two bracketing anchors have equal identifiers, the
zero-guard makes the fraction 0 in the below-range, above-range and
in-range branches alike, so each branch returns its base anchor's timestamp
and no division is attempted. -/
theorem zero_width_interval_frac_zero : ∀ (a b : ℤ × ℚ) (u : ℤ), a.1 = b.1 →
    guardedFrac (u - a.1) (b.1 - a.1) = 0 ∧
    guardedFrac (u - b.1) (b.1 - a.1) = 0 ∧
    interpVal a b u = a.2 ∧
    extrapAboveVal a b u = b.2 := by
  intro a b u h
  have hden : b.1 - a.1 = 0 := by omega
  refine ⟨?_, ?_, ?_, ?_⟩ <;> simp [guardedFrac, interpVal, extrapAboveVal, hden]

/-- C9 witness: a degenerate pair of anchors sharing identifier 5. -/
theorem zero_width_interval_frac_zero_witness :
    guardedFrac (99 - ((5:ℤ), (3:ℚ)).1) (((5:ℤ), (7:ℚ)).1 - ((5:ℤ), (3:ℚ)).1) = 0 ∧
    guardedFrac (99 - ((5:ℤ), (7:ℚ)).1) (((5:ℤ), (7:ℚ)).1 - ((5:ℤ), (3:ℚ)).1) = 0 ∧
    interpVal ((5:ℤ), (3:ℚ)) ((5:ℤ), (7:ℚ)) 99 = ((5:ℤ), (3:ℚ)).2 ∧
    extrapAboveVal ((5:ℤ), (3:ℚ)) ((5:ℤ), (7:ℚ)) 99 = ((5:ℤ), (7:ℚ)).2 :=
  zero_width_interval_frac_zero (5, 3) (5, 7) 99 rfl

/-- `min(found) if found else None` agrees with `List.min?`. -/
theorem ifEmpty_min_eq (l : List ℚ) : (if l.isEmpty then none else l.min?) = l.min? := by
  cases l <;> simp

/-- When every page fetch returns a response, the page loop collects exactly
the per-page contributions in order. -/
theorem scrapeLoop_all_ok : ∀ (pages : List PageFetch) (acc : List ℚ),
    (∀ p ∈ pages, pageOk p = true) →
    scrapeLoop pages acc = some (acc ++ (pages.map pageContribution).flatten) := by
  intro pages
  induction pages with
  | nil => intro acc _; simp [scrapeLoop]
  | cons p rest ih =>
    intro acc h
    cases p with
    | error e => exact absurd (h _ (List.mem_cons_self _ _)) (by simp [pageOk])
    | ok pr =>
      obtain ⟨st, elems⟩ := pr
      have hrest : ∀ q ∈ rest, pageOk q = true :=
        fun q hq => h q (List.mem_cons_of_mem _ hq)
      by_cases hst : st = 200
      · simp [scrapeLoop, hst, pageContribution, ih _ hrest]
      · simp [scrapeLoop, hst, pageContribution, ih _ hrest]

/-- A raised page fetch anywhere in the list makes the page loop abort with
`none`, whatever was already accumulated. -/
theorem scrapeLoop_err : ∀ (pages : List PageFetch) (acc : List ℚ),
    (∃ p ∈ pages, pageOk p = false) → scrapeLoop pages acc = none := by
  intro pages
  induction pages with
  | nil => rintro acc ⟨p, hp, -⟩; simp at hp
  | cons p rest ih =>
    rintro acc ⟨q, hq, hqf⟩
    cases p with
    | error e => rfl
    | ok pr =>
      obtain ⟨st, elems⟩ := pr
      have hqrest : q ∈ rest := by
        rcases List.mem_cons.1 hq with rfl | h
        · simp [pageOk] at hqf
        · exact h
      by_cases hst : st = 200
      · simp [scrapeLoop, hst, ih _ ⟨q, hqrest, hqf⟩]
      · simp [scrapeLoop, hst, ih _ ⟨q, hqrest, hqf⟩]

/-- C4 counterexample: page 1 returns status 200 with a parseable timestamp
5, page 2's fetch raises. The claim says the error contributes nothing and
the minimum 5 survives, but the source's outer `except` swallows the raised
error for the whole scrape and returns `None`, discarding page 1's find. -/
theorem scrape_error_abort_cex :
    scrape_earliest_tme_post [Except.ok ((200:ℤ), [some (5:ℚ)]), Except.error ()] = none ∧
    scrapeSpecMin [Except.ok ((200:ℤ), [some (5:ℚ)]), Except.error ()] = some 5 ∧
    (none : Option ℚ) ≠ some 5 := by
  refine ⟨by decide, by decide, by simp⟩

/-- C4 amended: when every page fetch returns a response, the scrape returns
the minimum of all parseable timestamps across the pages (a non-200 response
contributes none for that page only), or `none` when nothing was collected;
but when any page fetch raises, the whole scrape returns `none`, discarding
timestamps already collected from other pages. -/
theorem scrape_earliest_ok_and_error : ∀ pages : List PageFetch,
    ((∀ p ∈ pages, pageOk p = true) →
      scrape_earliest_tme_post pages = scrapeSpecMin pages) ∧
    ((∃ p ∈ pages, pageOk p = false) → scrape_earliest_tme_post pages = none) := by
  intro pages
  constructor
  · intro h
    unfold scrape_earliest_tme_post
    rw [scrapeLoop_all_ok pages [] h]
    simp only [List.nil_append]
    rw [ifEmpty_min_eq]
    rfl
  · intro h
    unfold scrape_earliest_tme_post
    rw [scrapeLoop_err pages [] h]

/-- C4 amended witness: two responses (one 200 with timestamps 3 and 1 plus
an unparseable element, one 404) — the scrape returns the collected minimum
1, matching the claimed cross-page minimum. -/
theorem scrape_earliest_ok_and_error_witness :
    scrape_earliest_tme_post
        [Except.ok ((200:ℤ), [some (3:ℚ), none, some 1]),
         Except.ok ((404:ℤ), [some (0:ℚ)])] =
      scrapeSpecMin
        [Except.ok ((200:ℤ), [some (3:ℚ), none, some 1]),
         Except.ok ((404:ℤ), [some (0:ℚ)])] ∧
    scrapeSpecMin
        [Except.ok ((200:ℤ), [some (3:ℚ), none, some 1]),
         Except.ok ((404:ℤ), [some (0:ℚ)])] = some 1 :=
  ⟨(scrape_earliest_ok_and_error _).1 (by decide), by decide⟩

/-- C5 counterexample: the entity has a public handle, the scrape yielded
timestamp 10, and the oldest-first message sequence starts at timestamp 20.
The source returns the scraped 10 as the earliest-message value, so skipping
the message scan is not a mere optimization: it changes which timestamp
lands in the `by_telethon_msg` slot (10 instead of the first record's 20). -/
theorem earliest_message_scrape_shortcut_cex :
    earliest_public_message_date (some "chan") (some (10:ℚ)) (Except.ok [20]) = some 10 ∧
    firstFetchedMessageDate (Except.ok [(20:ℚ)]) = some 20 ∧
    earliest_public_message_date (some "chan") (some (10:ℚ)) (Except.ok [20]) ≠
      earliest_public_message_date (some "chan") none (Except.ok [20]) := by
  refine ⟨rfl, rfl, by decide⟩

/-- C5 amended: when the entity has no public handle or the scrape yielded
nothing, the extractor returns the first record of the (at most 500 scanned)
oldest-first sequence, or `none` on an empty sequence or raised fetch; but
when the handle exists and the scrape yielded a timestamp, that scraped
timestamp is returned instead of the first record's. -/
theorem earliest_public_message_spec :
    ∀ (uname : Option String) (scraped : Option ℚ) (msgs : MsgFetch),
    (uname = none ∨ scraped = none →
      earliest_public_message_date uname scraped msgs = firstFetchedMessageDate msgs) ∧
    (∀ t, uname.isSome = true → scraped = some t →
      earliest_public_message_date uname scraped msgs = some t) ∧
    (∀ e, msgs = Except.error e → firstFetchedMessageDate msgs = none) ∧
    (∀ l, msgs = Except.ok l → firstFetchedMessageDate msgs = l.head?) := by
  intro uname scraped msgs
  refine ⟨?_, ?_, ?_, ?_⟩
  · rintro (rfl | rfl)
    · rfl
    · cases uname <;> rfl
  · rintro t hu rfl
    cases uname with
    | none => simp at hu
    | some _ => rfl
  · rintro e rfl; rfl
  · rintro l rfl
    cases l with
    | nil => rfl
    | cons a t => rfl

/-- C5 amended witness: handle present but scrape empty — the extractor
falls through to the message scan and returns the first record, 7. -/
theorem earliest_public_message_spec_witness :
    earliest_public_message_date (some "chan") none (Except.ok [(7:ℚ), 9]) =
      firstFetchedMessageDate (Except.ok [(7:ℚ), 9]) ∧
    firstFetchedMessageDate (Except.ok [(7:ℚ), 9]) = some 7 :=
  ⟨(earliest_public_message_spec (some "chan") none (Except.ok [7, 9])).1 (Or.inr rfl), rfl⟩


/-- The EXIF item loop takes the first matching tag in iteration order: if
no tag of the prefix matches, the first matching item after it is found. -/
theorem find?_first_pref : ∀ (l1 : List (String × String)) (name v : String)
    (l2 : List (String × String)),
    (∀ p ∈ l1, exifDatePref.contains p.1 = false) →
    exifDatePref.contains name = true →
    (l1 ++ (name, v) :: l2).find? (fun p => exifDatePref.contains p.1) = some (name, v) := by
  intro l1
  induction l1 with
  | nil =>
    intro name v l2 _ hn
    rw [List.nil_append,
      @List.find?_cons_of_pos _ (fun p => exifDatePref.contains p.1) (name, v) l2 hn]
  | cons a t ih =>
    intro name v l2 h hn
    rw [List.cons_append,
      @List.find?_cons_of_neg _ (fun p => exifDatePref.contains p.1) a
        (t ++ (name, v) :: l2) (by simpa using h a (List.mem_cons_self _ _))]
    exact ih name v l2 (fun p hp => h p (List.mem_cons_of_mem _ hp)) hn

/-- C6 counterexample: an EXIF map whose iteration order lists `DateTime`
before `DateTimeOriginal`. The claim says `DateTimeOriginal` wins whenever
present, but the source's loop takes the first of the three names it meets
in map order, so `DateTime`'s value (2021-05-01 10:00:00) is returned, not
`DateTimeOriginal`'s (2019-01-02 03:04:05). -/
theorem exif_tag_order_cex :
    extract_exif_datetime_from_bytes (Except.ok
      [("DateTime", "2021:05:01 10:00:00"), ("DateTimeOriginal", "2019:01:02 03:04:05")]) =
      some ⟨2021, 5, 1, 10, 0, 0⟩ ∧
    (⟨2021, 5, 1, 10, 0, 0⟩ : UTCDateTime) ≠ ⟨2019, 1, 2, 3, 4, 5⟩ :=
  ⟨by decide, by decide⟩

/-- C6 amended: the extractor selects the first tag in the metadata's
iteration order whose name is one of `DateTimeOriginal`, `DateTime`,
`DateTimeDigitized` (not the preference-list order), then normalizes the
first two colons to dashes and parses `"%Y-%m-%d %H:%M:%S"` as UTC; a raised
decode, an absent/empty map, no matching tag, an empty value or a parse
failure all give `None` rather than an exception. -/
theorem exif_datetime_selection :
    ∀ (l1 l2 : List (String × String)) (name v : String) (e : Unit),
    ((∀ p ∈ l1, exifDatePref.contains p.1 = false) →
      exifDatePref.contains name = true →
      extract_exif_datetime_from_bytes (Except.ok (l1 ++ (name, v) :: l2)) =
        (if v = "" then none else strptimeYmdHMS (replaceColonsTwo 2 v.data))) ∧
    (extract_exif_datetime_from_bytes (Except.error e) = none) ∧
    ((∀ p ∈ l1, exifDatePref.contains p.1 = false) →
      extract_exif_datetime_from_bytes (Except.ok l1) = none) := by
  intro l1 l2 name v e
  refine ⟨?_, rfl, ?_⟩
  · intro h hn
    have hne : (l1 ++ (name, v) :: l2).isEmpty = false := by simp
    simp only [extract_exif_datetime_from_bytes, hne, Bool.false_eq_true, if_false,
      find?_first_pref l1 name v l2 h hn]
  · intro h
    have hfn : l1.find? (fun p => exifDatePref.contains p.1) = none :=
      List.find?_eq_none.2 (fun x hx => by simpa using h x hx)
    simp only [extract_exif_datetime_from_bytes, hfn]
    split <;> rfl

/-- C6 amended witness: a non-matching tag precedes `DateTimeOriginal`,
whose leap-day value parses to 2020-02-29 23:59:59 UTC. -/
theorem exif_datetime_selection_witness :
    extract_exif_datetime_from_bytes
        (Except.ok ([("Make", "X")] ++ ("DateTimeOriginal", "2020:02:29 23:59:59") :: [])) =
      (if "2020:02:29 23:59:59" = "" then none
       else strptimeYmdHMS (replaceColonsTwo 2 "2020:02:29 23:59:59".data)) ∧
    strptimeYmdHMS (replaceColonsTwo 2 "2020:02:29 23:59:59".data) =
      some ⟨2020, 2, 29, 23, 59, 59⟩ :=
  ⟨(exif_datetime_selection [("Make", "X")] [] "DateTimeOriginal" "2020:02:29 23:59:59" ()).1
      (by decide) (by decide),
   by decide⟩

/-- C8: with generation-time year `Y ≥ 2013`, the generated artifact has
exactly `(Y - 2013 + 1) + 1` entries, its first entry's timestamp is
2013-01-01T00:00:00Z, and its last entry is `(2_000_000_000, now)`. -/
theorem ensure_anchors_artifact_shape : ∀ now : UTCDateTime, 2013 ≤ now.year →
    (ensure_anchors_list now).length = (now.year - 2013 + 1).toNat + 1 ∧
    ((ensure_anchors_list now).head?.map Prod.snd) = some ⟨2013, 1, 1, 0, 0, 0⟩ ∧
    (ensure_anchors_list now).getLast? = some (2000000000, now) := by
  intro now hy
  refine ⟨?_, ?_, ?_⟩
  · unfold ensure_anchors_list
    rw [List.length_append, List.length_map, List.length_range]
    rfl
  · obtain ⟨k, hk⟩ : ∃ k, (now.year - 2013 + 1).toNat = k + 1 :=
      ⟨(now.year - 2013).toNat, by omega⟩
    unfold ensure_anchors_list
    dsimp only
    rw [hk, List.range_succ_eq_map]
    simp
  · unfold ensure_anchors_list
    exact List.getLast?_concat _

/-- C8 witness: generation on 2025-10-12 03:04:05 — 14 entries, first
timestamp 2013-01-01, last entry `(2_000_000_000, now)`. -/
theorem ensure_anchors_artifact_shape_witness :
    (ensure_anchors_list ⟨2025, 10, 12, 3, 4, 5⟩).length =
      ((⟨2025, 10, 12, 3, 4, 5⟩ : UTCDateTime).year - 2013 + 1).toNat + 1 ∧
    ((ensure_anchors_list ⟨2025, 10, 12, 3, 4, 5⟩).head?.map Prod.snd) =
      some ⟨2013, 1, 1, 0, 0, 0⟩ ∧
    (ensure_anchors_list ⟨2025, 10, 12, 3, 4, 5⟩).getLast? =
      some (2000000000, ⟨2025, 10, 12, 3, 4, 5⟩) :=
  ensure_anchors_artifact_shape ⟨2025, 10, 12, 3, 4, 5⟩ (by decide)

/-- Any anchor table with at least two entries makes every branch of the
estimator return a value. -/
theorem estimate_by_anchors_isSome :
    ∀ (a b : ℤ × ℚ) (r : List (ℤ × ℚ)) (u : ℤ),
    (estimate_by_anchors (a :: b :: r) u).isSome = true := by
  intro a b r u
  unfold estimate_by_anchors
  cases hfe : findExact (a :: b :: r) u with
  | some ts => rfl
  | none =>
    by_cases h1 : u < a.1
    · simp [h1]
    · by_cases h2 : (lastTwo a b r).2.1 < u
      · simp [h1, h2]
      · simp [h1, h2]

/-- C10: once the identifier resolves, the pipeline populates `by_anchors`
unconditionally — the loaded table has at least two anchors (for any
generation-time year ≥ 2013), the estimator returns a value on it, and so
`choose_final_estimate` returns a non-`None` timestamp with confidence at
least 0.35, whatever the other three signals did; the
"No usable signal found" / 0.0 branch is unreachable from this pipeline. -/
theorem pipeline_by_anchors_always_populated :
    ∀ (now : UTCDateTime), 2013 ≤ now.year →
    ∀ (uid : ℤ) (pf tm sc : Option ℚ) (uname : Option String),
    (estimate_by_anchors (load_anchors now) uid).isSome = true ∧
    (choose_final_estimate (handle_request_results pf tm uname sc
        (((estimate_by_anchors (load_anchors now) uid).map Prod.fst).getD 0))).1.isSome = true ∧
    (0.35 : ℚ) ≤ (choose_final_estimate (handle_request_results pf tm uname sc
        (((estimate_by_anchors (load_anchors now) uid).map Prod.fst).getD 0))).2.2 := by
  intro now hy uid pf tm sc uname
  have hlen : 2 ≤ (load_anchors now).length := by
    unfold load_anchors
    rw [List.length_mergeSort, List.length_map]
    unfold ensure_anchors_list
    rw [List.length_append, List.length_map, List.length_range]
    simp [List.length_cons]
    omega
  have hsome : (estimate_by_anchors (load_anchors now) uid).isSome = true := by
    rcases h : load_anchors now with _ | ⟨a, _ | ⟨b, r⟩⟩
    · rw [h] at hlen; simp at hlen
    · rw [h] at hlen; simp at hlen
    · exact estimate_by_anchors_isSome a b r uid
  refine ⟨hsome, ?_, ?_⟩ <;>
  · rcases pf with _ | t1 <;> rcases tm with _ | t2 <;>
      rcases uname with _ | un <;> rcases sc with _ | t3 <;>
        simp [choose_final_estimate, handle_request_results] <;> norm_num

/-- C10 witness: request for identifier 777 on 2025-10-12 with every other
signal absent. -/
theorem pipeline_by_anchors_always_populated_witness :
    (estimate_by_anchors (load_anchors ⟨2025, 10, 12, 3, 4, 5⟩) 777).isSome = true ∧
    (choose_final_estimate (handle_request_results none none none none
        (((estimate_by_anchors (load_anchors ⟨2025, 10, 12, 3, 4, 5⟩) 777).map
          Prod.fst).getD 0))).1.isSome = true ∧
    (0.35 : ℚ) ≤ (choose_final_estimate (handle_request_results none none none none
        (((estimate_by_anchors (load_anchors ⟨2025, 10, 12, 3, 4, 5⟩) 777).map
          Prod.fst).getD 0))).2.2 :=
  pipeline_by_anchors_always_populated ⟨2025, 10, 12, 3, 4, 5⟩ (by decide) 777
    none none none none

/-- A zero numerator makes the guarded fraction 0 whatever the denominator. -/
theorem guardedFrac_zero_num (den : ℤ) : guardedFrac 0 den = 0 := by
  unfold guardedFrac; split <;> simp

/-- Interpolating at the left bracket id returns the left timestamp. -/
theorem interpVal_left (a b : ℤ × ℚ) : interpVal a b a.1 = a.2 := by
  unfold interpVal
  rw [sub_self, guardedFrac_zero_num]
  ring

/-- Interpolating at the right bracket id returns the right timestamp. -/
theorem interpVal_right (a b : ℤ × ℚ) (h : a.1 < b.1) : interpVal a b b.1 = b.2 := by
  unfold interpVal guardedFrac
  have hden : b.1 - a.1 ≠ 0 := by omega
  rw [if_neg hden]
  have hq : ((b.1 - a.1 : ℤ) : ℚ) ≠ 0 := Int.cast_ne_zero.2 hden
  rw [div_self hq]
  ring

/-- A single interpolation segment with nondecreasing endpoints is monotone
in the identifier. -/
theorem interpVal_mono (a b : ℤ × ℚ) (hid : a.1 < b.1) (hts : a.2 ≤ b.2)
    {u1 u2 : ℤ} (hu : u1 ≤ u2) : interpVal a b u1 ≤ interpVal a b u2 := by
  unfold interpVal guardedFrac
  have hden : b.1 - a.1 ≠ 0 := by omega
  rw [if_neg hden, if_neg hden]
  have hpos : (0:ℚ) < ((b.1 - a.1 : ℤ) : ℚ) := by
    exact_mod_cast (by omega : (0:ℤ) < b.1 - a.1)
  have hnum : ((u1 - a.1 : ℤ) : ℚ) ≤ ((u2 - a.1 : ℤ) : ℚ) := by
    exact_mod_cast (by omega : (u1 - a.1 : ℤ) ≤ u2 - a.1)
  have hfr : ((u1 - a.1 : ℤ) : ℚ) / ((b.1 - a.1 : ℤ) : ℚ) ≤
      ((u2 - a.1 : ℤ) : ℚ) / ((b.1 - a.1 : ℤ) : ℚ) := by
    apply div_le_div_of_nonneg_right hnum hpos.le
  have hsub : (0:ℚ) ≤ b.2 - a.2 := by linarith
  have := mul_le_mul_of_nonneg_left hfr hsub
  linarith

/-- Left of the right bracket id, a segment's value stays at or below the
right timestamp. -/
theorem interpVal_le_right (a b : ℤ × ℚ) (hid : a.1 < b.1) (hts : a.2 ≤ b.2)
    {u : ℤ} (hu : u ≤ b.1) : interpVal a b u ≤ b.2 := by
  have h1 := interpVal_mono a b hid hts hu
  rw [interpVal_right a b hid] at h1
  exact h1

/-- The in-range value at the leading anchor's id is its timestamp. -/
theorem inRangeVal_left : ∀ (r : List (ℤ × ℚ)) (a b : ℤ × ℚ), a.1 ≤ b.1 →
    inRangeVal a b r a.1 = a.2 := by
  intro r a b h
  cases r with
  | nil => exact interpVal_left a b
  | cons c r' =>
    unfold inRangeVal
    rw [if_pos h]
    exact interpVal_left a b

/-- The piecewise in-range interpolation over a table with strictly
increasing ids and nondecreasing timestamps is monotone in the identifier. -/
theorem inRangeVal_mono : ∀ (r : List (ℤ × ℚ)) (a b : ℤ × ℚ) (u1 u2 : ℤ),
    List.Chain' (fun x y => x.1 < y.1) (a :: b :: r) →
    List.Chain' (fun x y => x.2 ≤ y.2) (a :: b :: r) →
    u1 ≤ u2 → inRangeVal a b r u1 ≤ inRangeVal a b r u2 := by
  intro r
  induction r with
  | nil =>
    intro a b u1 u2 hid hts hu
    exact interpVal_mono a b (List.chain'_cons.1 hid).1 (List.chain'_cons.1 hts).1 hu
  | cons c r' ih =>
    intro a b u1 u2 hid hts hu
    obtain ⟨hab, hidt⟩ := List.chain'_cons.1 hid
    obtain ⟨habts, htst⟩ := List.chain'_cons.1 hts
    have hbc : b.1 < c.1 := (List.chain'_cons.1 hidt).1
    unfold inRangeVal
    by_cases h2 : u2 ≤ b.1
    · have h1 : u1 ≤ b.1 := le_trans hu h2
      rw [if_pos h1, if_pos h2]
      exact interpVal_mono a b hab habts hu
    · rw [if_neg h2]
      by_cases h1 : u1 ≤ b.1
      · rw [if_pos h1]
        have e2 : inRangeVal b c r' b.1 = b.2 := inRangeVal_left r' b c (le_of_lt hbc)
        have e3 : inRangeVal b c r' b.1 ≤ inRangeVal b c r' u2 :=
          ih b c b.1 u2 hidt htst (by omega)
        calc interpVal a b u1 ≤ b.2 := interpVal_le_right a b hab habts h1
          _ = inRangeVal b c r' b.1 := e2.symm
          _ ≤ inRangeVal b c r' u2 := e3
      · rw [if_neg h1]
        exact ih b c u1 u2 hidt htst hu

/-- An exact-match hit is a member of the table. -/
theorem findExact_mem : ∀ (l : List (ℤ × ℚ)) (u : ℤ) (ts : ℚ),
    findExact l u = some ts → (u, ts) ∈ l := by
  intro l
  induction l with
  | nil => intro u ts h; simp [findExact] at h
  | cons a t ih =>
    intro u ts h
    obtain ⟨uid, tsa⟩ := a
    simp only [findExact] at h
    by_cases he : uid = u
    · rw [if_pos he] at h
      obtain rfl := Option.some.inj h
      subst he
      exact List.mem_cons_self _ _
    · rw [if_neg he] at h
      exact List.mem_cons_of_mem _ (ih u ts h)

/-- In a strictly id-sorted table, the head's id bounds every member's id. -/
theorem chain_head_le_mem : ∀ (l : List (ℤ × ℚ)) (a x : ℤ × ℚ),
    List.Chain' (fun p q => p.1 < q.1) (a :: l) → x ∈ a :: l → a.1 ≤ x.1 := by
  intro l
  induction l with
  | nil =>
    intro a x _ hm
    rcases List.mem_cons.1 hm with rfl | h
    · exact le_refl _
    · simp at h
  | cons b t ih =>
    intro a x hch hm
    obtain ⟨hab, hcht⟩ := List.chain'_cons.1 hch
    rcases List.mem_cons.1 hm with rfl | hm'
    · exact le_refl _
    · exact le_trans (le_of_lt hab) (ih b x hcht hm')

/-- On a strictly id-sorted table an exact match agrees with the in-range
interpolation value at that identifier. -/
theorem findExact_inRangeVal : ∀ (r : List (ℤ × ℚ)) (a b : ℤ × ℚ) (u : ℤ) (ts : ℚ),
    List.Chain' (fun x y => x.1 < y.1) (a :: b :: r) →
    findExact (a :: b :: r) u = some ts → inRangeVal a b r u = ts := by
  intro r
  induction r with
  | nil =>
    intro a b u ts hch hfe
    have hab : a.1 < b.1 := (List.chain'_cons.1 hch).1
    obtain ⟨uida, tsa⟩ := a
    simp only [findExact] at hfe
    by_cases ha : uida = u
    · rw [if_pos ha] at hfe
      obtain rfl := Option.some.inj hfe
      subst ha
      exact interpVal_left (uida, tsa) b
    · rw [if_neg ha] at hfe
      obtain ⟨uidb, tsb⟩ := b
      simp only [findExact] at hfe
      by_cases hb : uidb = u
      · rw [if_pos hb] at hfe
        obtain rfl := Option.some.inj hfe
        subst hb
        exact interpVal_right (uida, tsa) (uidb, tsb) hab
      · rw [if_neg hb] at hfe
        simp [findExact] at hfe
  | cons c r' ih =>
    intro a b u ts hch hfe
    obtain ⟨hab, hcht⟩ := List.chain'_cons.1 hch
    obtain ⟨uida, tsa⟩ := a
    simp only [findExact] at hfe
    by_cases ha : uida = u
    · rw [if_pos ha] at hfe
      obtain rfl := Option.some.inj hfe
      subst ha
      exact inRangeVal_left (c :: r') (uida, tsa) b (le_of_lt hab)
    · rw [if_neg ha] at hfe
      have hmem : (u, ts) ∈ b :: c :: r' := findExact_mem _ u ts hfe
      have hble : b.1 ≤ u := chain_head_le_mem (c :: r') b (u, ts) hcht hmem
      by_cases hub : u ≤ b.1
      · have hub' : u = b.1 := le_antisymm hub hble
        obtain ⟨uidb, tsb⟩ := b
        simp only [findExact] at hfe
        have heq : uidb = u := hub'.symm
        rw [if_pos heq] at hfe
        obtain rfl := Option.some.inj hfe
        unfold inRangeVal
        rw [if_pos hub]
        subst heq
        exact interpVal_right (uida, tsa) (uidb, tsb) hab
      · unfold inRangeVal
        rw [if_neg hub]
        exact ih b c u ts hcht hfe

/-- `lastTwo` computes the table's last anchor. -/
theorem lastTwo_getLast? : ∀ (r : List (ℤ × ℚ)) (a b : ℤ × ℚ),
    (a :: b :: r).getLast? = some (lastTwo a b r).2 := by
  intro r
  induction r with
  | nil => intro a b; rfl
  | cons c r' ih =>
    intro a b
    rw [List.getLast?_cons_cons]
    exact ih b c

/-- For an in-range identifier on a strictly id-sorted table the bracket
scan finds a pair whose interpolation equals the in-range value. -/
theorem findBracket_inRangeVal : ∀ (r : List (ℤ × ℚ)) (a b : ℤ × ℚ) (u : ℤ),
    List.Chain' (fun x y => x.1 < y.1) (a :: b :: r) →
    a.1 ≤ u → u ≤ (lastTwo a b r).2.1 →
    ∃ lo hi, findBracket (a :: b :: r) u = some (lo, hi) ∧
      interpVal lo hi u = inRangeVal a b r u := by
  intro r
  induction r with
  | nil =>
    intro a b u hch h0 h1
    refine ⟨a, b, ?_, rfl⟩
    unfold findBracket
    rw [if_pos ⟨h0, h1⟩]
  | cons c r' ih =>
    intro a b u hch h0 h1
    obtain ⟨hab, hcht⟩ := List.chain'_cons.1 hch
    by_cases hub : u ≤ b.1
    · refine ⟨a, b, ?_, ?_⟩
      · unfold findBracket
        rw [if_pos ⟨h0, hub⟩]
      · unfold inRangeVal
        rw [if_pos hub]
    · have hbu : b.1 ≤ u := le_of_not_le hub
      obtain ⟨lo, hi, hbr, hval⟩ := ih b c u hcht hbu h1
      refine ⟨lo, hi, ?_, ?_⟩
      · unfold findBracket
        rw [if_neg (fun hcon => hub hcon.2)]
        exact hbr
      · unfold inRangeVal
        rw [if_neg hub]
        exact hval

/-- On a strictly id-sorted table, for any in-range identifier, the
estimator's value (through exact match or bracket interpolation alike) is
the in-range interpolation value. -/
theorem estimate_bridge : ∀ (r : List (ℤ × ℚ)) (a b : ℤ × ℚ) (u : ℤ),
    List.Chain' (fun x y => x.1 < y.1) (a :: b :: r) →
    a.1 ≤ u → u ≤ (lastTwo a b r).2.1 →
    (estimate_by_anchors (a :: b :: r) u).map Prod.fst = some (inRangeVal a b r u) := by
  intro r a b u hch h0 h1
  unfold estimate_by_anchors
  cases hfe : findExact (a :: b :: r) u with
  | some ts =>
    have hv := findExact_inRangeVal r a b u ts hch hfe
    simp [hv]
  | none =>
    dsimp only
    rw [if_neg (not_lt.2 h0), if_neg (not_lt.2 h1)]
    obtain ⟨lo, hi, hbr, hval⟩ := findBracket_inRangeVal r a b u hch h0 h1
    rw [hbr]
    simp [hval]

/-- C7 counterexample: the two-anchor table [(0, 100), (10, 0)] (sorted by
id, timestamps decreasing) with in-range identifiers 2 < 8 gives estimates
80 > 20 — the claim's monotonicity fails for anchor tables whose timestamps
are not nondecreasing. -/
theorem anchors_monotone_cex :
    2 ≤ ([((0:ℤ), (100:ℚ)), (10, 0)] : List (ℤ × ℚ)).length ∧
    List.Chain' (fun x y => x.1 < y.1) ([((0:ℤ), (100:ℚ)), (10, 0)] : List (ℤ × ℚ)) ∧
    (0:ℤ) ≤ 2 ∧ (2:ℤ) < 8 ∧ (8:ℤ) ≤ 10 ∧
    (estimate_by_anchors [((0:ℤ), (100:ℚ)), (10, 0)] 2).map Prod.fst = some 80 ∧
    (estimate_by_anchors [((0:ℤ), (100:ℚ)), (10, 0)] 8).map Prod.fst = some 20 ∧
    ¬ ((80:ℚ) ≤ 20) := by
  refine ⟨by decide, by norm_num [List.chain'_pair], by decide, by decide, by decide,
    ?_, ?_, by norm_num⟩ <;>
    norm_num [estimate_by_anchors, findExact, findBracket, lastTwo, interpVal, guardedFrac]

/-- C7 amended: for every anchor table with at least two anchors, strictly
increasing identifiers (the data-model invariant) and nondecreasing
timestamps, and every pair of identifiers id1 < id2 within the anchor
range, `estimate(id1).timestamp ≤ estimate(id2).timestamp` (and both
estimates exist). -/
theorem estimate_by_anchors_monotone :
    ∀ (l : List (ℤ × ℚ)) (hd lastA : ℤ × ℚ) (u1 u2 : ℤ),
    2 ≤ l.length →
    List.Chain' (fun x y => x.1 < y.1) l →
    List.Chain' (fun x y => x.2 ≤ y.2) l →
    l.head? = some hd → l.getLast? = some lastA →
    hd.1 ≤ u1 → u1 < u2 → u2 ≤ lastA.1 →
    ((estimate_by_anchors l u1).map Prod.fst).getD 0 ≤
      ((estimate_by_anchors l u2).map Prod.fst).getD 0 ∧
    (estimate_by_anchors l u1).isSome = true ∧
    (estimate_by_anchors l u2).isSome = true := by
  intro l hd lastA u1 u2 hlen hid hts hhd hlast h0 h12 h2
  rcases l with _ | ⟨a, _ | ⟨b, r⟩⟩
  · simp at hlen
  · simp at hlen
  · have hda : hd = a := by
      have h := hhd
      simp only [List.head?_cons] at h
      exact (Option.some.inj h).symm
    rw [hda] at h0
    have hlt : (lastTwo a b r).2 = lastA := by
      rw [lastTwo_getLast? r a b] at hlast
      exact Option.some.inj hlast
    have hlt1 : (lastTwo a b r).2.1 = lastA.1 := by rw [hlt]
    have hb1 := estimate_bridge r a b u1 hid h0 (by omega)
    have hb2 := estimate_bridge r a b u2 hid (by omega) (by omega)
    have hm := inRangeVal_mono r a b u1 u2 hid hts (le_of_lt h12)
    refine ⟨?_, estimate_by_anchors_isSome a b r u1, estimate_by_anchors_isSome a b r u2⟩
    rw [hb1, hb2]
    simpa using hm

/-- C7 amended witness: the table [(0, 0), (10, 10)] with 0 ≤ 2 < 5 ≤ 10. -/
theorem estimate_by_anchors_monotone_witness :
    (((estimate_by_anchors [((0:ℤ), (0:ℚ)), (10, 10)] 2).map Prod.fst).getD 0 ≤
      ((estimate_by_anchors [((0:ℤ), (0:ℚ)), (10, 10)] 5).map Prod.fst).getD 0) ∧
    (estimate_by_anchors [((0:ℤ), (0:ℚ)), (10, 10)] 2).isSome = true ∧
    (estimate_by_anchors [((0:ℤ), (0:ℚ)), (10, 10)] 5).isSome = true :=
  estimate_by_anchors_monotone [((0:ℤ), (0:ℚ)), (10, 10)] (0, 0) (10, 10) 2 5
    (by decide) (by norm_num [List.chain'_pair]) (by norm_num [List.chain'_pair])
    (by decide) (by decide) (by decide) (by decide) (by decide)

/-- C2 counterexample: for the scenario table (with `now` = 2026-10-12) and
identifier 1,000,000,000 the final estimate does NOT equal the interpolation
between the 1,000,500,000 and 2,000,000,000 anchors — 1,000,000,000 lies
below 1,000,500,000, so the bracket scan picks the (500,500,000;
1,000,500,000) pair instead. -/
theorem end_to_end_anchor_bracket_cex :
    (choose_final_estimate ⟨none, none, none,
        (estimate_by_anchors (c2Anchors (toEpoch ⟨2026, 10, 12, 0, 0, 0⟩)) 1000000000).map
          Prod.fst⟩).1 ≠
      some (interpVal (1000500000, toEpoch ⟨2023, 1, 1, 0, 0, 0⟩)
        (2000000000, toEpoch ⟨2026, 10, 12, 0, 0, 0⟩) 1000000000) := by
  norm_num [choose_final_estimate, estimate_by_anchors, findExact, findBracket, lastTwo,
    c2Anchors, toEpoch, daysFromCivil, interpVal, guardedFrac]

/-- C2 amended: for identifier 1,000,000,000 on the scenario table with no
other signal present, the final estimate equals the linear interpolation
between the 500,500,000 (2018) and 1,000,500,000 (2023) anchors — the
bracketing pair for that identifier — selected through the anchors slot with
confidence 0.35, for every generation-time `now` anchor value. -/
theorem end_to_end_anchor_estimate : ∀ now : ℚ,
    (estimate_by_anchors (c2Anchors now) 1000000000).map Prod.fst =
      some (interpVal (500500000, toEpoch ⟨2018, 1, 1, 0, 0, 0⟩)
        (1000500000, toEpoch ⟨2023, 1, 1, 0, 0, 0⟩) 1000000000) ∧
    choose_final_estimate ⟨none, none, none,
        (estimate_by_anchors (c2Anchors now) 1000000000).map Prod.fst⟩ =
      ((estimate_by_anchors (c2Anchors now) 1000000000).map Prod.fst,
        "Anchors interpolation (low confidence)", 0.35) := by
  intro now
  have h1 : (estimate_by_anchors (c2Anchors now) 1000000000).map Prod.fst =
      some (interpVal (500500000, toEpoch ⟨2018, 1, 1, 0, 0, 0⟩)
        (1000500000, toEpoch ⟨2023, 1, 1, 0, 0, 0⟩) 1000000000) := by
    norm_num [estimate_by_anchors, findExact, findBracket, lastTwo, c2Anchors, toEpoch,
      daysFromCivil]
  refine ⟨h1, ?_⟩
  rw [h1]
  rfl
